import Mathlib

/-!
Shallow embedding of the text-matching core of SmartRead (src/app.py):
normalization, vocabulary parsing, corpus loading, and the three ranking
passes (TF-IDF tab1 handler, coverage tab2 loop, exact intersection),
together with theorems settling the specification claims.

External NLP collaborators are modelled explicitly:
* the NLTK English stop-word list is embedded verbatim;
* the WordNet lemmatizer is a parameter (`Lemmatizer`), since its data is
  an external corpus; concrete witnesses instantiate it with a small model
  of its behaviour on the words they use;
* `nltk.word_tokenize` is applied in `app.py` only after every punctuation
  character has been replaced by a space, where it coincides with
  whitespace splitting, which is how it is modelled here.

String operations are defined by structural recursion over `String.data`
so that every definition evaluates by kernel reduction.
-/

/-- Embeds `base_stop_words = set(stopwords.words('english'))` (src/app.py:32):
the NLTK English stop-word list. -/
def base_stop_words : List String :=
  ["i", "me", "my", "myself", "we", "our", "ours", "ourselves", "you",
   "you\x27re", "you\x27ve", "you\x27ll", "you\x27d", "your", "yours",
   "yourself", "yourselves", "he", "him", "his", "himself", "she",
   "she\x27s", "her", "hers", "herself", "it", "it\x27s", "its", "itself",
   "they", "them", "their", "theirs", "themselves", "what", "which", "who",
   "whom", "this", "that", "that\x27ll", "these", "those", "am", "is",
   "are", "was", "were", "be", "been", "being", "have", "has", "had",
   "having", "do", "does", "did", "doing", "a", "an", "the", "and", "but",
   "if", "or", "because", "as", "until", "while", "of", "at", "by", "for",
   "with", "about", "against", "between", "into", "through", "during",
   "before", "after", "above", "below", "to", "from", "up", "down", "in",
   "out", "on", "off", "over", "under", "again", "further", "then", "once",
   "here", "there", "when", "where", "why", "how", "all", "any", "both",
   "each", "few", "more", "most", "other", "some", "such", "no", "nor",
   "not", "only", "own", "same", "so", "than", "too", "very", "s", "t",
   "can", "will", "just", "don", "don\x27t", "should", "should\x27ve",
   "now", "d", "ll", "m", "o", "re", "ve", "y", "ain", "aren",
   "aren\x27t", "couldn", "couldn\x27t", "didn", "didn\x27t", "doesn",
   "doesn\x27t", "hadn", "hadn\x27t", "hasn", "hasn\x27t", "haven",
   "haven\x27t", "isn", "isn\x27t", "ma", "mightn", "mightn\x27t",
   "mustn", "mustn\x27t", "needn", "needn\x27t", "shan", "shan\x27t",
   "shouldn", "shouldn\x27t", "wasn", "wasn\x27t", "weren", "weren\x27t",
   "won", "won\x27t", "wouldn", "wouldn\x27t"]

/-- Embeds `academic_stop_words` (src/app.py:34-37). -/
def academic_stop_words : List String :=
  ["text", "author", "passage", "paragraph", "article",
   "example", "however", "although", "therefore", "study", "research"]

/-- Embeds `final_stop_words = list(base_stop_words.union(academic_stop_words))`
(src/app.py:38); list append has the same membership as the Python union. -/
def final_stop_words : List String :=
  base_stop_words ++ academic_stop_words

/-- Embeds Python `string.punctuation`: the 32 ASCII punctuation characters. -/
def py_punctuation : List Char :=
  ['!', '"', '#', '$', '%', '&', '\x27', '(', ')', '*', '+', ',', '-',
   '.', '/', ':', ';', '<', '=', '>', '?', '@', '[', '\\', ']', '^',
   '_', '\x60', '\x7b', '|', '\x7d', '~']

/-- Models Python `str.lower` on ASCII text, character by character. -/
def pyLower (s : String) : String :=
  String.mk (s.data.map Char.toLower)

/-- Embeds `text.translate(str.maketrans(string.punctuation, ' '*len(...)))`
(src/app.py:44): every punctuation character becomes a space. -/
def translate_punct (text : String) : String :=
  String.mk (text.data.map (fun c => if c ∈ py_punctuation then ' ' else c))

/-- Splits a character list into maximal whitespace-free runs; `acc` holds
the (reversed) current run. -/
def tokensAux : List Char → List Char → List String
  | [], acc => if acc = [] then [] else [String.mk acc.reverse]
  | c :: cs, acc =>
    if c.isWhitespace then
      (if acc = [] then tokensAux cs [] else String.mk acc.reverse :: tokensAux cs [])
    else tokensAux cs (c :: acc)

/-- Models `nltk.word_tokenize` as applied in src/app.py:45: the input has
already had every punctuation character replaced by a space, so standard
English tokenization coincides with whitespace splitting. -/
def word_tokenize (s : String) : List String :=
  tokensAux s.data []

/-- Models Python `str.isalpha` on ASCII text: nonempty and all alphabetic. -/
def pyIsAlpha (s : String) : Bool :=
  s.data ≠ [] && s.data.all Char.isAlpha

/-- Models the external WordNet lemmatizer (src/app.py:31): `lemmaV w` is
`lemmatizer.lemmatize(w, pos='v')` and `lemmaN w` is
`lemmatizer.lemmatize(w, pos='n')`. Its dictionary is external data, so it
is kept abstract; witnesses instantiate it on concrete words. -/
structure Lemmatizer where
  lemmaV : String → String
  lemmaN : String → String

/-- Instantiates `Lemmatizer` with WordNet behaviour on the concrete words
used by the witnesses in this development: inflected forms reduce to their
base form, everything else is already a lemma and maps to itself. -/
def wordnetModel : Lemmatizer where
  lemmaV := fun w => if w = "studies" then "study" else w
  lemmaN := fun w => w

/-- Embeds `process_text_for_display` (src/app.py:42-52): lowercase, replace
punctuation by spaces, tokenize, keep tokens that are not base stop-words,
longer than one character and entirely alphabetic, lemmatize verb-pass then
noun-pass, and return the set of resulting lemmas. -/
def process_text_for_display (L : Lemmatizer) (text : String) : Finset String :=
  let words := word_tokenize (translate_punct (pyLower text))
  let clean_words := words.filterMap (fun word =>
    if word ∉ base_stop_words ∧ word.length > 1 ∧ pyIsAlpha word then
      some (L.lemmaN (L.lemmaV word))
    else none)
  clean_words.toFinset

/-- C5: for every input text all of whose tokens (after lowercasing and
punctuation replacement) are base stop-words, too short, or not entirely
alphabetic, `process_text_for_display` returns the empty set, for any
lemmatizer. -/
theorem normalize_stopwords_digits_empty (L : Lemmatizer) (text : String)
    (h : ∀ w ∈ word_tokenize (translate_punct (pyLower text)),
      w ∈ base_stop_words ∨ ¬ w.length > 1 ∨ ¬ pyIsAlpha w) :
    process_text_for_display L text = ∅ := by
  unfold process_text_for_display
  simp only [List.toFinset_eq_empty_iff, List.filterMap_eq_nil_iff]
  intro w hw
  rw [if_neg]
  rintro ⟨hns, hlen, halpha⟩
  rcases h w hw with h1 | h2 | h3
  · exact hns h1
  · exact h2 hlen
  · exact h3 halpha

/-- Witness for C5: `normalize("the 2024 a of it 99%") = {}`. -/
theorem normalize_stopwords_digits_empty_witness :
    process_text_for_display wordnetModel "the 2024 a of it 99%" = ∅ :=
  normalize_stopwords_digits_empty wordnetModel "the 2024 a of it 99%"
    (by decide)

/-- Models Python `str.strip`: drop whitespace from both ends. -/
def pyStrip (s : String) : String :=
  String.mk (((s.data.dropWhile Char.isWhitespace).reverse.dropWhile
    Char.isWhitespace).reverse)

/-- Splits a character list at each newline, as Python `text.split('\n')`;
`acc` holds the (reversed) current segment. -/
def splitNewlineAux : List Char → List Char → List String
  | [], acc => [String.mk acc.reverse]
  | c :: cs, acc =>
    if c = '\n' then String.mk acc.reverse :: splitNewlineAux cs []
    else splitNewlineAux cs (c :: acc)

/-- Embeds `text.split('\n')` (src/app.py:109). -/
def py_split_newline (s : String) : List String :=
  splitNewlineAux s.data []

/-- Character class of the leading-run regex `[a-zA-Z\-']` (src/app.py:116). -/
def latinRunChar (c : Char) : Bool :=
  c.isAlpha || c = '-' || c = '\x27'

/-- Character class kept by the cleanup regex `re.sub(r'[^a-zA-Z\-]', '', ...)`
(src/app.py:120): letters and hyphens survive. -/
def cleanChar (c : Char) : Bool :=
  c.isAlpha || c = '-'

/-- Embeds the per-line step of `parse_vocabulary_paste` (src/app.py:110-122):
strip the line, skip it when blank, match the leading run of Latin
letters/hyphens/apostrophes when it has length at least 2, remove the
remaining non-letter/non-hyphen characters, lowercase, and drop base
stop-words. -/
def parse_line (line : String) : Option String :=
  let stripped := pyStrip line
  if stripped = "" then none
  else
    let run := stripped.data.takeWhile latinRunChar
    if 2 ≤ run.length then
      let clean_word := pyLower (String.mk (run.filter cleanChar))
      if clean_word ∈ base_stop_words then none else some clean_word
    else none

/-- Embeds `parse_vocabulary_paste` (src/app.py:100-124): apply `parse_line`
to every line and accumulate the survivors into a deduplicating set. -/
def parse_vocabulary_paste (text : String) : Finset String :=
  ((py_split_newline text).filterMap parse_line).toFinset

/-- C7: a line contributes a word exactly when its stripped form starts with
a Latin-letter/hyphen/apostrophe run of length at least 2 and the cleaned,
lowercased run is not a base stop-word; the parse result is the
deduplicated set of per-line contributions; and the example paste
`"abandon v. 放弃\nability n. 能力\n的\n"` parses to exactly
`{"abandon", "ability"}`. -/
theorem parse_vocabulary_paste_spec :
    (∀ line w, parse_line line = some w ↔
      (2 ≤ ((pyStrip line).data.takeWhile latinRunChar).length ∧
       w = pyLower (String.mk
         (((pyStrip line).data.takeWhile latinRunChar).filter cleanChar)) ∧
       w ∉ base_stop_words)) ∧
    (∀ text w, w ∈ parse_vocabulary_paste text ↔
      ∃ line ∈ py_split_newline text, parse_line line = some w) ∧
    parse_vocabulary_paste "abandon v. 放弃\nability n. 能力\n的\n" =
      {"abandon", "ability"} := by
  refine ⟨fun line w => ?_, fun text w => ?_, by decide⟩
  · unfold parse_line
    by_cases hs : pyStrip line = ""
    · have hd : (pyStrip line).data = [] := by rw [hs]
      simp [hs, hd]
    · simp only [if_neg hs]
      by_cases hlen : 2 ≤ ((pyStrip line).data.takeWhile latinRunChar).length
      · simp only [if_pos hlen]
        by_cases hstop : pyLower (String.mk
            (((pyStrip line).data.takeWhile latinRunChar).filter cleanChar)) ∈
            base_stop_words
        · simp only [if_pos hstop]
          constructor
          · intro h; exact absurd h (by simp)
          · rintro ⟨-, rfl, hw⟩; exact absurd hstop hw
        · simp only [if_neg hstop]
          constructor
          · intro h
            obtain rfl := (Option.some_inj.mp h).symm
            exact ⟨hlen, rfl, hstop⟩
          · rintro ⟨-, rfl, -⟩; rfl
      · simp only [if_neg hlen]
        constructor
        · intro h; exact absurd h (by simp)
        · rintro ⟨h2, -, -⟩; exact absurd h2 hlen
  · simp [parse_vocabulary_paste, List.mem_filterMap]

/-- Stable insertion step for a descending sort by `key`: the new element
goes after every element of strictly greater key and before the first
element of smaller-or-equal key (so earlier equal-key elements stay
earlier, matching the stability of Python `list.sort`). -/
def insertDescBy {α β : Type} [LinearOrder β] (key : α → β) (x : α) :
    List α → List α
  | [] => [x]
  | y :: ys => if key x < key y then y :: insertDescBy key x ys else x :: y :: ys

/-- Models Python `list.sort(key=..., reverse=True)`: a stable descending
sort by `key` (Python Timsort is stable; any stable descending sort by the
same key yields the same list). -/
def sortDescBy {α β : Type} [LinearOrder β] (key : α → β) : List α → List α
  | [] => []
  | x :: xs => insertDescBy key x (sortDescBy key xs)

theorem mem_insertDescBy {α β : Type} [LinearOrder β] (key : α → β)
    (x a : α) (l : List α) :
    a ∈ insertDescBy key x l ↔ a = x ∨ a ∈ l := by
  induction l with
  | nil => simp [insertDescBy]
  | cons y ys ih =>
    unfold insertDescBy
    split
    · simp only [List.mem_cons, ih]; tauto
    · simp only [List.mem_cons]

theorem mem_sortDescBy {α β : Type} [LinearOrder β] (key : α → β)
    (a : α) (l : List α) :
    a ∈ sortDescBy key l ↔ a ∈ l := by
  induction l with
  | nil => simp [sortDescBy]
  | cons x xs ih => simp [sortDescBy, mem_insertDescBy, ih]

theorem pairwise_insertDescBy {α β : Type} [LinearOrder β] (key : α → β)
    (x : α) (l : List α) (h : l.Pairwise (fun a b => key b ≤ key a)) :
    (insertDescBy key x l).Pairwise (fun a b => key b ≤ key a) := by
  induction l with
  | nil => simp [insertDescBy]
  | cons y ys ih =>
    rw [List.pairwise_cons] at h
    unfold insertDescBy
    split
    · rename_i hlt
      rw [List.pairwise_cons]
      refine ⟨fun a ha => ?_, ih h.2⟩
      rw [mem_insertDescBy] at ha
      rcases ha with rfl | ha
      · exact le_of_lt hlt
      · exact h.1 a ha
    · rename_i hnlt
      rw [List.pairwise_cons]
      refine ⟨fun a ha => ?_, List.pairwise_cons.mpr h⟩
      rcases List.mem_cons.mp ha with rfl | ha
      · exact le_of_not_lt hnlt
      · exact le_trans (h.1 a ha) (le_of_not_lt hnlt)

theorem pairwise_sortDescBy {α β : Type} [LinearOrder β] (key : α → β)
    (l : List α) :
    (sortDescBy key l).Pairwise (fun a b => key b ≤ key a) := by
  induction l with
  | nil => simp [sortDescBy]
  | cons x xs ih => exact pairwise_insertDescBy key x _ ih

/-- Embeds the article dictionary built by `load_articles` (src/app.py:153-159).
The optional `score` and `matches` fields model the `'score'` and `'matches'`
keys that the tab1 handler later writes onto the same dictionary
(src/app.py:262-263); `none` means the key is absent. -/
structure Article where
  title : String
  year : Nat
  category : String
  content : String
  lemmas : Finset String
  score : Option ℚ := none
  matched_terms : Option (Finset String) := none
deriving DecidableEq

/-- Embeds the recommendation dictionary built by the tab2 coverage loop
(src/app.py:325-330). -/
structure CoverageRec where
  article : Article
  hits : Nat
  hit_words : Finset String
  coverage : ℚ
deriving DecidableEq

/-- Embeds the tab2 maximum-coverage loop (src/app.py:318-333): each article
is intersected with the vocabulary set, articles with empty intersection
are dropped, hits and the coverage fraction are recorded, and the result
list is sorted by hits descending. `mkRat` is exact rational division
(`Rat.mkRat_eq_div`), modelling the Python division
`len(intersection) / len(user_vocab_set)`. -/
def coverage_recommendations (user_vocab_set : Finset String)
    (filtered_articles : List Article) : List CoverageRec :=
  let recommendations := filtered_articles.filterMap (fun item =>
    let intersection := user_vocab_set ∩ item.lemmas
    if intersection ≠ ∅ then
      some { article := item, hits := intersection.card,
             hit_words := intersection,
             coverage := mkRat intersection.card user_vocab_set.card }
    else none)
  sortDescBy (fun r => r.hits) recommendations

/-- C4: every recommendation scores its article independently as
`hits = |vocabulary ∩ lemmas|` with coverage fraction `hits / |vocabulary|`;
articles with empty intersection are excluded, every article with nonempty
intersection is included, and the output is sorted by hits descending. -/
theorem coverage_recommendations_spec (V : Finset String)
    (docs : List Article) :
    (∀ r ∈ coverage_recommendations V docs,
      r.article ∈ docs ∧
      r.hit_words = V ∩ r.article.lemmas ∧
      r.hits = (V ∩ r.article.lemmas).card ∧
      V ∩ r.article.lemmas ≠ ∅ ∧
      r.coverage = ((V ∩ r.article.lemmas).card : ℚ) / (V.card : ℚ)) ∧
    (∀ doc ∈ docs, V ∩ doc.lemmas = ∅ →
      ∀ r ∈ coverage_recommendations V docs, r.article ≠ doc) ∧
    (∀ doc ∈ docs, V ∩ doc.lemmas ≠ ∅ →
      ∃ r ∈ coverage_recommendations V docs, r.article = doc ∧
        r.hits = (V ∩ doc.lemmas).card ∧
        r.coverage = ((V ∩ doc.lemmas).card : ℚ) / (V.card : ℚ)) ∧
    (coverage_recommendations V docs).Pairwise (fun a b => b.hits ≤ a.hits) := by
  have hmem : ∀ r ∈ coverage_recommendations V docs,
      r.article ∈ docs ∧
      r.hit_words = V ∩ r.article.lemmas ∧
      r.hits = (V ∩ r.article.lemmas).card ∧
      V ∩ r.article.lemmas ≠ ∅ ∧
      r.coverage = ((V ∩ r.article.lemmas).card : ℚ) / (V.card : ℚ) := by
    intro r hr
    simp only [coverage_recommendations] at hr
    rw [mem_sortDescBy, List.mem_filterMap] at hr
    obtain ⟨item, hitem, heq⟩ := hr
    by_cases hne : V ∩ item.lemmas ≠ ∅
    · rw [if_pos hne] at heq
      obtain rfl := Option.some_inj.mp heq
      refine ⟨hitem, rfl, rfl, hne, ?_⟩
      rw [Rat.mkRat_eq_div]
      push_cast
      rfl
    · rw [if_neg hne] at heq
      exact absurd heq (by simp)
  refine ⟨hmem, ?_, ?_, ?_⟩
  · intro doc _ hempty r hr heq
    obtain ⟨-, -, -, hne, -⟩ := hmem r hr
    rw [heq] at hne
    exact hne hempty
  · intro doc hdoc hne
    refine ⟨{ article := doc, hits := (V ∩ doc.lemmas).card,
              hit_words := V ∩ doc.lemmas,
              coverage := mkRat (V ∩ doc.lemmas).card V.card }, ?_, rfl, rfl, ?_⟩
    · simp only [coverage_recommendations]
      rw [mem_sortDescBy, List.mem_filterMap]
      exact ⟨doc, hdoc, by rw [if_pos hne]⟩
    · rw [Rat.mkRat_eq_div]
      push_cast
      rfl
  · exact pairwise_sortDescBy _ _

/-- Concrete article for the coverage witness: its content contains
"abandon" and "ability" once each and normalizes to the lemma set
`{"abandon", "ability", "focus"}`. -/
def coverageArticle : Article :=
  { title := "2020eng1.txt", year := 2020, category := "英语一",
    content := "They abandon the ability to focus.",
    lemmas := process_text_for_display wordnetModel
      "They abandon the ability to focus." }

/-- Witness for C4: vocabulary `{"abandon","ability","zzzznotaword"}` against
an article containing "abandon" and "ability" gives hits = 2 and
coverage = 2/3. -/
theorem coverage_recommendations_spec_witness :
    ∃ r ∈ coverage_recommendations {"abandon", "ability", "zzzznotaword"}
      [coverageArticle],
      r.article = coverageArticle ∧ r.hits = 2 ∧ r.coverage = (2 : ℚ) / 3 := by
  obtain ⟨r, hr, hart, hhits, hcov⟩ :=
    (coverage_recommendations_spec {"abandon", "ability", "zzzznotaword"}
      [coverageArticle]).2.2.1 coverageArticle (by simp) (by decide)
  have h2 : (({"abandon", "ability", "zzzznotaword"} : Finset String) ∩
      coverageArticle.lemmas).card = 2 := by decide
  have h3 : ({"abandon", "ability", "zzzznotaword"} : Finset String).card = 3 := by
    decide
  refine ⟨r, hr, hart, by rw [hhits, h2], ?_⟩
  rw [hcov, h2, h3]
  norm_num

/-- Result wrapper of the Exact-Match Ranker (spec §4.4). -/
structure RankedResult where
  document : Article
  score : Nat
  matched_terms : Finset String
deriving DecidableEq

/-- Modelled from the spec: the Exact-Match Ranker
`rankByIntersection(queryLemmas, documents)` of spec §4.4 has no standalone
function in src/app.py; the repository realizes the same
intersect-filter-sort pass inline in the tab2 loop (src/app.py:321-333),
which this definition follows with the query lemma set as parameter: keep
documents whose lemma intersection with the query is nonempty, score by
intersection size, sort by score descending. -/
def rankByIntersection (queryLemmas : Finset String)
    (documents : List Article) : List RankedResult :=
  let results := documents.filterMap (fun doc =>
    let intersection := queryLemmas ∩ doc.lemmas
    if intersection ≠ ∅ then
      some { document := doc, score := intersection.card,
             matched_terms := intersection }
    else none)
  sortDescBy (fun r => r.score) results

/-- C2: `rankByIntersection` applied to the normalized query lemma set
scores every returned document as `|normalize(query) ∩ document.lemmas|`,
excludes every document with empty intersection, includes every document
with nonempty intersection, and sorts by descending intersection size. -/
theorem rankByIntersection_spec (L : Lemmatizer) (query : String)
    (docs : List Article) :
    (∀ r ∈ rankByIntersection (process_text_for_display L query) docs,
      r.document ∈ docs ∧
      r.score = (process_text_for_display L query ∩ r.document.lemmas).card ∧
      r.matched_terms = process_text_for_display L query ∩ r.document.lemmas ∧
      process_text_for_display L query ∩ r.document.lemmas ≠ ∅) ∧
    (∀ doc ∈ docs, process_text_for_display L query ∩ doc.lemmas = ∅ →
      ∀ r ∈ rankByIntersection (process_text_for_display L query) docs,
        r.document ≠ doc) ∧
    (∀ doc ∈ docs, process_text_for_display L query ∩ doc.lemmas ≠ ∅ →
      ∃ r ∈ rankByIntersection (process_text_for_display L query) docs,
        r.document = doc ∧
        r.score = (process_text_for_display L query ∩ doc.lemmas).card) ∧
    (rankByIntersection (process_text_for_display L query) docs).Pairwise
      (fun a b => b.score ≤ a.score) := by
  set q := process_text_for_display L query with hq
  have hmem : ∀ r ∈ rankByIntersection q docs,
      r.document ∈ docs ∧
      r.score = (q ∩ r.document.lemmas).card ∧
      r.matched_terms = q ∩ r.document.lemmas ∧
      q ∩ r.document.lemmas ≠ ∅ := by
    intro r hr
    simp only [rankByIntersection] at hr
    rw [mem_sortDescBy, List.mem_filterMap] at hr
    obtain ⟨doc, hdoc, heq⟩ := hr
    by_cases hne : q ∩ doc.lemmas ≠ ∅
    · rw [if_pos hne] at heq
      obtain rfl := Option.some_inj.mp heq
      exact ⟨hdoc, rfl, rfl, hne⟩
    · rw [if_neg hne] at heq
      exact absurd heq (by simp)
  refine ⟨hmem, ?_, ?_, ?_⟩
  · intro doc _ hempty r hr heq
    obtain ⟨-, -, -, hne⟩ := hmem r hr
    rw [heq] at hne
    exact hne hempty
  · intro doc hdoc hne
    refine ⟨{ document := doc, score := (q ∩ doc.lemmas).card,
              matched_terms := q ∩ doc.lemmas }, ?_, rfl, rfl⟩
    simp only [rankByIntersection]
    rw [mem_sortDescBy, List.mem_filterMap]
    exact ⟨doc, hdoc, by rw [if_pos hne]⟩
  · exact pairwise_sortDescBy _ _

/-- Witness for C2: the query "the ability to focus" ranks the coverage
article with score 2, the size of its lemma intersection with the
normalized query. -/
theorem rankByIntersection_spec_witness :
    ∃ r ∈ rankByIntersection
      (process_text_for_display wordnetModel "the ability to focus")
      [coverageArticle],
      r.document = coverageArticle ∧ r.score = 2 := by
  obtain ⟨r, hr, hdoc, hscore⟩ :=
    (rankByIntersection_spec wordnetModel "the ability to focus"
      [coverageArticle]).2.2.1 coverageArticle (by simp) (by decide)
  exact ⟨r, hr, hdoc, by rw [hscore]; decide⟩

/-- Embeds the similarity threshold literal `0.05` of src/app.py:260 as the
exact rational 1/20. -/
def tab1_threshold : ℚ := mkRat 1 20

/-- Embeds the result entry appended by the tab1 handler
(src/app.py:261-264): the article together with the `'score'` and
`'matches'` values attached for this query (`matched_terms` models the
`'matches'` key). -/
structure Tab1Result where
  item : Article
  score : ℚ
  matched_terms : Finset String
deriving DecidableEq

/-- Embeds the result-building and sorting part of the tab1 search handler
(src/app.py:256-266): pair each candidate article with its similarity
score, keep pairs whose score strictly exceeds the 0.05 threshold, attach
the lemma-intersection match set, and sort by score descending. The
similarity scores are inputs here: cosine similarity itself is computed by
the external sklearn collaborator, one score per candidate article. -/
def tab1_results (L : Lemmatizer) (user_input : String)
    (similarity_scores : List ℚ) (filtered_articles : List Article) :
    List Tab1Result :=
  let user_lemmas := process_text_for_display L user_input
  let results := (similarity_scores.zip filtered_articles).filterMap (fun p =>
    if p.1 > tab1_threshold then
      some { item := p.2, score := p.1,
             matched_terms := user_lemmas ∩ p.2.lemmas }
    else none)
  sortDescBy (fun r => r.score) results

/-- C3: the tab1 result list contains exactly the candidates whose
similarity score strictly exceeds 0.05 — every result carries a score above
the threshold and comes from a (score, article) candidate pair, every
candidate pair above the threshold appears, and the list is sorted by
similarity score descending. -/
theorem tab1_results_spec (L : Lemmatizer) (user_input : String)
    (similarity_scores : List ℚ) (filtered_articles : List Article) :
    (∀ r ∈ tab1_results L user_input similarity_scores filtered_articles,
      r.score > tab1_threshold ∧
      ∃ p ∈ similarity_scores.zip filtered_articles,
        r.item = p.2 ∧ r.score = p.1 ∧
        r.matched_terms = process_text_for_display L user_input ∩ p.2.lemmas) ∧
    (∀ p ∈ similarity_scores.zip filtered_articles, p.1 > tab1_threshold →
      ∃ r ∈ tab1_results L user_input similarity_scores filtered_articles,
        r.item = p.2 ∧ r.score = p.1) ∧
    (tab1_results L user_input similarity_scores filtered_articles).Pairwise
      (fun a b => b.score ≤ a.score) := by
  refine ⟨?_, ?_, pairwise_sortDescBy _ _⟩
  · intro r hr
    simp only [tab1_results] at hr
    rw [mem_sortDescBy, List.mem_filterMap] at hr
    obtain ⟨p, hp, heq⟩ := hr
    by_cases hgt : p.1 > tab1_threshold
    · rw [if_pos hgt] at heq
      obtain rfl := Option.some_inj.mp heq
      exact ⟨hgt, p, hp, rfl, rfl, rfl⟩
    · rw [if_neg hgt] at heq
      exact absurd heq (by simp)
  · intro p hp hgt
    refine ⟨{ item := p.2, score := p.1,
              matched_terms := process_text_for_display L user_input ∩
                p.2.lemmas }, ?_, rfl, rfl⟩
    simp only [tab1_results]
    rw [mem_sortDescBy, List.mem_filterMap]
    exact ⟨p, hp, by rw [if_pos hgt]⟩

/-- Witness for C3: a candidate scoring 1/10 (> 0.05) appears in the tab1
results with its score. -/
theorem tab1_results_spec_witness :
    ∃ r ∈ tab1_results wordnetModel "growth" [mkRat 1 10] [coverageArticle],
      r.item = coverageArticle ∧ r.score = mkRat 1 10 :=
  (tab1_results_spec wordnetModel "growth" [mkRat 1 10]
    [coverageArticle]).2.1 (mkRat 1 10, coverageArticle) (by simp) (by decide)

/-- Embeds the mutation that the tab1 handler performs on the shared
article dictionaries (src/app.py:259-264): each article whose similarity
score strictly exceeds 0.05 has its `'score'` and `'matches'` keys
overwritten in place (the loop mutates `item`, which is the same object
held by the corpus list); every other article keeps whatever keys it
already carried. The returned list is the post-pass state of the shared
corpus. -/
def tab1_search_state (user_lemmas : Finset String)
    (similarity_scores : List ℚ) (filtered_articles : List Article) :
    List Article :=
  (similarity_scores.zip filtered_articles).map (fun p =>
    if p.1 > tab1_threshold then
      { p.2 with score := some p.1,
                 matched_terms := some (user_lemmas ∩ p.2.lemmas) }
    else p.2)

/-- Article as loaded into the corpus, before any query: the transient
keys are absent. -/
def staleArticle : Article :=
  { title := "2019eng2.txt", year := 2019, category := "英语二",
    content := "Economic growth.", lemmas := {"economic", "growth"} }

/-- C1 (refuting evaluation): two independent tab1 ranking passes over the
same shared corpus. In the first pass the article scores 1, so the handler
writes `score = 1` and `matches = {"growth"}` onto the shared object; in
the second, independent pass it scores 0 — at most the threshold — and is
left untouched, so after the second pass it still carries the first
query's transient values: the per-query fields persist across independent
queries instead of being cleared. -/
theorem tab1_transient_fields_persist :
    tab1_search_state ∅ [0]
      (tab1_search_state {"growth"} [1] [staleArticle]) =
    [{ staleArticle with score := some 1,
                         matched_terms := some {"growth"} }] := by decide

/-- Models the `ValueError` that sklearn `fit_transform` raises when the
effective vocabulary is empty (caught at src/app.py:285). -/
inductive ValueError
  | emptyVocabulary
deriving DecidableEq

/-- Embeds the three observable outcomes of the tab1 search handler
(src/app.py:268-286): a nonempty ranked result list, the "no match" info
message, or the no-signal warning shown after a caught `ValueError`. -/
inductive SearchOutcome
  | results (rs : List Tab1Result)
  | noMatchInfo
  | noSignalWarning
deriving DecidableEq

/-- Embeds the control flow of the tab1 handler's try/except block
(src/app.py:248-286): the corpus is the candidate contents with the query
appended last; the vectorize-and-score step is an external sklearn call
that either returns one similarity score per candidate or raises a
`ValueError`; the `except ValueError` arm turns the error into the
no-signal warning, so the error never escapes the handler. -/
def tab1_search (L : Lemmatizer) (user_input : String)
    (filtered_articles : List Article)
    (vectorize : List String → Except ValueError (List ℚ)) : SearchOutcome :=
  let corpus := filtered_articles.map (fun a => a.content) ++ [user_input]
  match vectorize corpus with
  | .error _ => .noSignalWarning
  | .ok similarity_scores =>
    let results := tab1_results L user_input similarity_scores
      filtered_articles
    if results ≠ [] then .results results else .noMatchInfo

/-- C9: whenever the vectorization step fails with a `ValueError` (for
example because the effective vocabulary is empty), the tab1 search
reports the recoverable no-signal warning; since `tab1_search` is total
into `SearchOutcome`, the underlying error is never propagated to the
caller. -/
theorem tab1_search_no_signal (L : Lemmatizer) (user_input : String)
    (filtered_articles : List Article)
    (vectorize : List String → Except ValueError (List ℚ)) (e : ValueError)
    (h : vectorize (filtered_articles.map (fun a => a.content) ++
      [user_input]) = .error e) :
    tab1_search L user_input filtered_articles vectorize =
      .noSignalWarning := by
  simp only [tab1_search]
  rw [h]

/-- Witness for C9: a vectorizer that always reports an empty vocabulary
makes the search return the no-signal warning. -/
theorem tab1_search_no_signal_witness :
    tab1_search wordnetModel "zzz" [staleArticle]
      (fun _ => .error .emptyVocabulary) = .noSignalWarning :=
  tab1_search_no_signal wordnetModel "zzz" [staleArticle]
    (fun _ => .error .emptyVocabulary) .emptyVocabulary rfl

/-- Tests whether a character list starts with a `20\d{2}` match
(src/app.py:141): "2", "0", then two decimal digits. -/
def is20xxAt : List Char → Bool
  | '2' :: '0' :: c :: d :: _ => c.isDigit && d.isDigit
  | _ => false

/-- Numeric value of a leading `20\d{2}` match. -/
def yearAt : List Char → Nat
  | _ :: _ :: c :: d :: _ => 2000 + 10 * (c.toNat - 48) + (d.toNat - 48)
  | _ => 0

/-- Embeds `re.search(r'20\d{2}', filename)` (src/app.py:141): scan left to
right and return the value of the first match, if any. -/
def findYear : List Char → Option Nat
  | [] => none
  | c :: cs =>
    if is20xxAt (c :: cs) then some (yearAt (c :: cs)) else findYear cs

/-- Embeds `year = int(year_match.group()) if year_match else 0`
(src/app.py:142). -/
def extract_year (filename : String) : Nat :=
  (findYear filename.data).getD 0

theorem findYear_eq_none (l : List Char)
    (h : ∀ i, is20xxAt (l.drop i) = false) : findYear l = none := by
  induction l with
  | nil => rfl
  | cons c cs ih =>
    unfold findYear
    rw [if_neg]
    · exact ih (fun i => h (i + 1))
    · simpa using h 0

theorem findYear_eq_some (l : List Char) (i : Nat)
    (hmatch : is20xxAt (l.drop i) = true)
    (hfirst : ∀ j < i, is20xxAt (l.drop j) = false) :
    findYear l = some (yearAt (l.drop i)) := by
  induction l generalizing i with
  | nil => simp [is20xxAt] at hmatch
  | cons c cs ih =>
    cases i with
    | zero =>
      simp only [List.drop_zero] at hmatch ⊢
      unfold findYear
      rw [if_pos hmatch]
    | succ i =>
      have h0 : is20xxAt (c :: cs) = false := hfirst 0 (Nat.succ_pos i)
      unfold findYear
      rw [if_neg (by simp [h0])]
      rw [List.drop_succ_cons] at hmatch ⊢
      exact ih i hmatch (fun j hj => by
        have := hfirst (j + 1) (Nat.succ_lt_succ hj)
        rwa [List.drop_succ_cons] at this)

/-- Character-list prefix test, by structural recursion. -/
def leadsWith : List Char → List Char → Bool
  | [], _ => true
  | _ :: _, [] => false
  | a :: as, b :: bs => a = b && leadsWith as bs

/-- Substring occurrence test used to model Python `pat in s`. -/
def containsAux (pat : List Char) : List Char → Bool
  | [] => leadsWith pat []
  | c :: cs => leadsWith pat (c :: cs) || containsAux pat cs

/-- Models the Python substring test `pat in s`. -/
def pyContains (s pat : String) : Bool :=
  containsAux pat.data s.data

/-- Models Python `s.endswith(suffix)`. -/
def pyEndsWith (s suffix : String) : Bool :=
  leadsWith suffix.data.reverse s.data.reverse

/-- Embeds `get_article_category_by_name` (src/app.py:55-66): keyword table
on the lowercased filename, defaulting to "其他". -/
def get_article_category_by_name (filename : String) : String :=
  let name_lower := pyLower filename
  if pyContains name_lower "eng1" || pyContains name_lower "英语一" then
    "英语一"
  else if pyContains name_lower "eng2" || pyContains name_lower "英语二" then
    "英语二"
  else if pyContains name_lower "cet4" || pyContains name_lower "四级" then
    "四级"
  else if pyContains name_lower "cet6" || pyContains name_lower "六级" then
    "六级"
  else "其他"

/-- One entry of the corpus walk: `os.walk` (src/app.py:136) is the
external filesystem collaborator; it supplies the filename, the name of
the containing folder, and the file content read at src/app.py:147-148. -/
structure SourceFile where
  filename : String
  folder_name : String
  content : String

/-- Embeds `load_articles` (src/app.py:129-163) over an abstract directory
walk: keep `.txt` / `.json` files whose content is not whitespace-only,
derive the year from the first `20\d{2}` match in the filename (0 when
absent), derive the category from the containing folder or, directly under
`data`, from the filename keyword table, precompute the lemma set, and
sort the articles by year descending. -/
def load_articles (L : Lemmatizer) (walk : List SourceFile) : List Article :=
  let articles := walk.filterMap (fun f =>
    if (pyEndsWith f.filename ".txt" || pyEndsWith f.filename ".json") ∧
        pyStrip f.content ≠ "" then
      some { title := f.filename, year := extract_year f.filename,
             category := if f.folder_name = "data" then
               get_article_category_by_name f.filename else f.folder_name,
             content := f.content,
             lemmas := process_text_for_display L f.content }
    else none)
  sortDescBy (fun a => a.year) articles

/-- C8: the year of every loaded article is the value of the first
`20\d{2}` match in its filename (0 when no position matches), and
`load_articles` returns the articles sorted by year descending, so every
unknown-year (year 0) article comes after every known-year article. -/
theorem load_articles_spec (L : Lemmatizer) (walk : List SourceFile) :
    (∀ fn : String, (∀ i, is20xxAt (fn.data.drop i) = false) →
      extract_year fn = 0) ∧
    (∀ (fn : String) (i : Nat), is20xxAt (fn.data.drop i) = true →
      (∀ j < i, is20xxAt (fn.data.drop j) = false) →
      extract_year fn = yearAt (fn.data.drop i)) ∧
    (∀ a ∈ load_articles L walk, a.year = extract_year a.title) ∧
    (load_articles L walk).Pairwise (fun a b => b.year ≤ a.year) ∧
    (∀ (i j : Nat) (hi : i < (load_articles L walk).length)
        (hj : j < (load_articles L walk).length),
      ((load_articles L walk).get ⟨i, hi⟩).year = 0 →
      0 < ((load_articles L walk).get ⟨j, hj⟩).year → j < i) := by
  have hpair : (load_articles L walk).Pairwise (fun a b => b.year ≤ a.year) :=
    pairwise_sortDescBy _ _
  refine ⟨?_, ?_, ?_, hpair, ?_⟩
  · intro fn h
    unfold extract_year
    rw [findYear_eq_none fn.data h]
    rfl
  · intro fn i hmatch hfirst
    unfold extract_year
    rw [findYear_eq_some fn.data i hmatch hfirst]
    rfl
  · intro a ha
    simp only [load_articles] at ha
    rw [mem_sortDescBy, List.mem_filterMap] at ha
    obtain ⟨f, hf, heq⟩ := ha
    by_cases hc : (pyEndsWith f.filename ".txt" ||
        pyEndsWith f.filename ".json") = true ∧ pyStrip f.content ≠ ""
    · rw [if_pos hc] at heq
      obtain rfl := Option.some_inj.mp heq
      rfl
    · rw [if_neg hc] at heq
      exact absurd heq (by simp)
  · intro i j hi hj h0 hpos
    rw [List.pairwise_iff_get] at hpair
    rcases lt_trichotomy i j with hij | hij | hij
    · have := hpair ⟨i, hi⟩ ⟨j, hj⟩ hij
      omega
    · subst hij
      omega
    · exact hij

/-- Witness for C8: the first `20\d{2}` match in
`"2021_CET6_reading.txt"` is at position 0, so its year is 2021. -/
theorem load_articles_spec_witness :
    extract_year "2021_CET6_reading.txt" = 2021 := by
  have h := (load_articles_spec wordnetModel []).2.1 "2021_CET6_reading.txt" 0
    (by decide) (by decide)
  rw [h]
  decide

/-- Word characters of the default sklearn token pattern `\w\w+`:
alphanumeric characters and the underscore. -/
def sklearnWordChar (c : Char) : Bool :=
  c.isAlphanum || c = '_'

/-- Splits a character list into maximal runs of characters satisfying
`keep`; `acc` holds the (reversed) current run. -/
def splitRunsAux (keep : Char → Bool) : List Char → List Char → List String
  | [], acc => if acc = [] then [] else [String.mk acc.reverse]
  | c :: cs, acc =>
    if keep c then splitRunsAux keep cs (c :: acc)
    else if acc = [] then splitRunsAux keep cs []
    else String.mk acc.reverse :: splitRunsAux keep cs []

/-- Models the default sklearn `TfidfVectorizer` analyzer: lowercase the
document and extract the tokens matched by `\b\w\w+\b` — maximal word-
character runs of length at least 2. -/
def sklearn_analyze (doc : String) : List String :=
  (splitRunsAux sklearnWordChar (pyLower doc).data []).filter
    (fun t => 2 ≤ t.length)

/-- Number of corpus documents whose token list contains the term. -/
def doc_frequency (corpus : List String) (t : String) : Nat :=
  (corpus.filter (fun d => t ∈ sklearn_analyze d)).length

/-- Models the term space built by
`TfidfVectorizer(stop_words=final_stop_words, max_df=0.6, min_df=1)`
(src/app.py:252): analyzer tokens of the corpus minus the extended stop
list, restricted to terms occurring in at least one document (`min_df=1`)
and in at most 60% of the documents (`max_df=0.6`). -/
def tfidf_vocabulary (corpus : List String) : Finset String :=
  (corpus.foldr (fun d acc => (sklearn_analyze d).toFinset ∪ acc) ∅).filter
    (fun t =>
      t ∉ final_stop_words ∧ 1 ≤ doc_frequency corpus t ∧
      (doc_frequency corpus t : ℚ) ≤ mkRat 3 5 * (corpus.length : ℚ))

/-- C6: an academic stop-word is excluded from the TF-IDF term space of
every corpus (the vectorizer filters with the extended stop list), while
the normalizer keeps its lemma whenever the word is a token of the input
that is not a base stop-word, is longer than one character, and is fully
alphabetic — the extended stop list is applied only by the vectorizer. -/
theorem academic_stop_words_tfidf_only (corpus : List String)
    (L : Lemmatizer) (text w : String)
    (hw : w ∈ academic_stop_words)
    (htok : w ∈ word_tokenize (translate_punct (pyLower text)))
    (hbase : w ∉ base_stop_words) (hlen : w.length > 1)
    (halpha : pyIsAlpha w) :
    L.lemmaN (L.lemmaV w) ∈ process_text_for_display L text ∧
    w ∉ tfidf_vocabulary corpus := by
  constructor
  · simp only [process_text_for_display, List.mem_toFinset,
      List.mem_filterMap]
    exact ⟨w, htok, by rw [if_pos ⟨hbase, hlen, halpha⟩]⟩
  · intro hmem
    rw [tfidf_vocabulary, Finset.mem_filter] at hmem
    exact hmem.2.1 (show w ∈ base_stop_words ++ academic_stop_words from
      List.mem_append_right _ hw)

/-- Witness for C6: "study" is an academic stop-word and not a base
stop-word; its lemma survives normalization of "We study economics" while
"study" is absent from the TF-IDF term space of a corpus mentioning it. -/
theorem academic_stop_words_tfidf_only_witness :
    wordnetModel.lemmaN (wordnetModel.lemmaV "study") ∈
      process_text_for_display wordnetModel "We study economics" ∧
    "study" ∉ tfidf_vocabulary ["We study economics", "study the research"] :=
  academic_stop_words_tfidf_only ["We study economics", "study the research"]
    wordnetModel "We study economics" "study" (by decide) (by decide)
    (by decide) (by decide) (by decide)

/-- Document used for C10: its content contains the inflected form
"studies" verbatim; normalization lemmatizes that token to "study". -/
def inflectedArticle : Article :=
  { title := "2022eng1.txt", year := 2022, category := "英语一",
    content := "Recent studies confirm this.",
    lemmas := process_text_for_display wordnetModel
      "Recent studies confirm this." }

/-- C10: the vocabulary parser does not lemmatize — parsing "studies"
yields the verbatim string "studies" — while the document's precomputed
lemma set holds only the lemmatized form "study", even though "studies"
occurs verbatim in the content; the coverage pass therefore records no hit
for the word and drops the document entirely. -/
theorem coverage_misses_inflected_vocab :
    parse_vocabulary_paste "studies\n" = {"studies"} ∧
    pyContains inflectedArticle.content "studies" = true ∧
    inflectedArticle.lemmas = {"recent", "study", "confirm"} ∧
    coverage_recommendations {"studies"} [inflectedArticle] = [] := by
  decide
